import Mathlib

/-!
Verification of the layer compositor (`LayerDrawable::DrawLayer` and
`LayerDrawable::onDraw` in `libs/hwui/pipeline/skia/LayerDrawable.cpp`).

The compositor is embedded shallowly: the external 2D matrix type is a
3x3 matrix of rationals with the standard row-major operations the code
uses (`preConcat`, `preScale`, `postScale`, `Concat`, `invert`,
`isIdentity`, `mapRect`), the destination canvas is a recording sink, and
`DrawLayer` is a pure function from its inputs to the boolean result and
the list of canvas calls it issues.
-/

/-- Row-major 3x3 matrix over ℚ, modelling the external 2D matrix type
(`SkMatrix`): entries `a b c / d e f / g h i` are
scaleX, skewX, transX / skewY, scaleY, transY / persp0, persp1, persp2. -/
structure M33 where
  a : ℚ
  b : ℚ
  c : ℚ
  d : ℚ
  e : ℚ
  f : ℚ
  g : ℚ
  h : ℚ
  i : ℚ
  deriving DecidableEq, Repr

namespace M33

/-- `setAll`, row-major, as in the matrix library. -/
def setAll (a b c d e f g h i : ℚ) : M33 := ⟨a, b, c, d, e, f, g, h, i⟩

/-- The identity matrix. -/
def idM : M33 := ⟨1, 0, 0, 0, 1, 0, 0, 0, 1⟩

/-- Matrix product (row times column). -/
def mul (m n : M33) : M33 :=
  ⟨m.a*n.a + m.b*n.d + m.c*n.g, m.a*n.b + m.b*n.e + m.c*n.h, m.a*n.c + m.b*n.f + m.c*n.i,
   m.d*n.a + m.e*n.d + m.f*n.g, m.d*n.b + m.e*n.e + m.f*n.h, m.d*n.c + m.e*n.f + m.f*n.i,
   m.g*n.a + m.h*n.d + m.i*n.g, m.g*n.b + m.h*n.e + m.i*n.h, m.g*n.c + m.h*n.f + m.i*n.i⟩

/-- Determinant by cofactor expansion along the first row. -/
def det (m : M33) : ℚ :=
  m.a * (m.e * m.i - m.f * m.h) - m.b * (m.d * m.i - m.f * m.g)
    + m.c * (m.d * m.h - m.e * m.g)

/-- Exact inverse: `none` when the determinant vanishes, else the adjugate
divided by the determinant.  Models `SkMatrix::invert`, which reports
failure and leaves the output untouched on a degenerate matrix. -/
def invert (m : M33) : Option M33 :=
  if m.det = 0 then none
  else
    some ⟨(m.e*m.i - m.f*m.h)/m.det, (m.c*m.h - m.b*m.i)/m.det, (m.b*m.f - m.c*m.e)/m.det,
          (m.f*m.g - m.d*m.i)/m.det, (m.a*m.i - m.c*m.g)/m.det, (m.c*m.d - m.a*m.f)/m.det,
          (m.d*m.h - m.e*m.g)/m.det, (m.b*m.g - m.a*m.h)/m.det, (m.a*m.e - m.b*m.d)/m.det⟩

/-- Axis-aligned scale matrix. -/
def scaleM (sx sy : ℚ) : M33 := ⟨sx, 0, 0, 0, sy, 0, 0, 0, 1⟩

/-- `m.preConcat(other)` replaces `m` with `m * other`. -/
def preConcat (m other : M33) : M33 := m.mul other

/-- `m.preScale(sx, sy)` replaces `m` with `m * Scale(sx, sy)`. -/
def preScale (m : M33) (sx sy : ℚ) : M33 := m.mul (scaleM sx sy)

/-- `m.postScale(sx, sy)` replaces `m` with `Scale(sx, sy) * m`. -/
def postScale (m : M33) (sx sy : ℚ) : M33 := (scaleM sx sy).mul m

/-- `Concat(x, y) = x * y`: the matrix applying `y` first, then `x`. -/
def concat (x y : M33) : M33 := x.mul y

/-- `isIdentity` check. -/
def isIdentity (m : M33) : Bool := m == idM

/-- Homogeneous point mapping with perspective divide. -/
def mapPoint (m : M33) (p : ℚ × ℚ) : ℚ × ℚ :=
  let X := m.a * p.1 + m.b * p.2 + m.c
  let Y := m.d * p.1 + m.e * p.2 + m.f
  let W := m.g * p.1 + m.h * p.2 + m.i
  (X / W, Y / W)

end M33

/-- Axis-aligned rectangle in surface coordinates. -/
structure SkRect where
  left : ℚ
  top : ℚ
  right : ℚ
  bottom : ℚ
  deriving DecidableEq, Repr

/-- `SkRect::MakeIWH(w, h) = [0, 0, w, h]`. -/
def SkRect.MakeIWH (w h : Int) : SkRect := ⟨0, 0, (w : ℚ), (h : ℚ)⟩

/-- `m.mapRect`: map the four corners and take their bounds. -/
def M33.mapRect (m : M33) (r : SkRect) : SkRect :=
  let p1 := m.mapPoint (r.left, r.top)
  let p2 := m.mapPoint (r.right, r.top)
  let p3 := m.mapPoint (r.right, r.bottom)
  let p4 := m.mapPoint (r.left, r.bottom)
  ⟨min (min p1.1 p2.1) (min p3.1 p4.1), min (min p1.2 p2.2) (min p3.2 p4.2),
   max (max p1.1 p2.1) (max p3.1 p4.1), max (max p1.2 p2.2) (max p3.2 p4.2)⟩

/-- Opaque GPU context handle; only its non-nullness matters. -/
abbrev GrContext := Unit

/-- Opaque handle to a backing image (`sk_sp<SkImage>` identity). -/
abbrev ImageRef := Nat

/-- Opaque blend-mode value (`SkBlendMode`). -/
abbrev SkBlendMode := Nat

/-- Opaque color-filter handle (`sk_sp<SkColorFilter>` identity). -/
abbrev ColorFilterRef := Nat

/-- Paint filter quality: the code only distinguishes the default from
`kLow_SkFilterQuality`. -/
inductive FilterQuality where
  | kNone : FilterQuality
  | kLow : FilterQuality
  deriving DecidableEq, Repr

/-- Source-rectangle constraint for image-rectangle draws. -/
inductive SrcRectConstraint where
  | kStrict : SrcRectConstraint
  | kFast : SrcRectConstraint
  deriving DecidableEq, Repr

/-- Modelled from the spec: the layer entity consumed by the compositor
(placement transform, texture transform, optional backing image, width,
height, opacity, blend mode, composed color filter, forced-filtering
flag); the accessors `getTransform` etc. of the external `Layer` class
are plain field reads. -/
structure Layer where
  transform : M33
  image : Option ImageRef
  width : Int
  height : Int
  texTransform : M33
  alpha : Nat
  mode : SkBlendMode
  colorSpaceWithFilter : Option ColorFilterRef
  forceFilter : Bool
  deriving DecidableEq, Repr

/-- The draw-state descriptor built by `DrawLayer` (`SkPaint` fields the
code sets). A fresh paint has the default filter quality. -/
structure SkPaint where
  alpha : Nat
  blendMode : SkBlendMode
  colorFilter : Option ColorFilterRef
  filterQuality : FilterQuality
  deriving DecidableEq, Repr

/-- Modelled from the spec: the destination surface records the calls it
receives (save, concat, restore, draw whole image, draw image rect). -/
inductive CanvasOp where
  | save : CanvasOp
  | concat : M33 → CanvasOp
  | restore : CanvasOp
  | drawImage : ImageRef → ℚ → ℚ → SkPaint → CanvasOp
  | drawImageRect : ImageRef → SkRect → SkRect → SkPaint → SrcRectConstraint → CanvasOp
  deriving DecidableEq, Repr

namespace CanvasOp

def isSave : CanvasOp → Bool
  | .save => true
  | _ => false

def isRestore : CanvasOp → Bool
  | .restore => true
  | _ => false

def isConcat : CanvasOp → Bool
  | .concat _ => true
  | _ => false

/-- Either drawing primitive. -/
def isDraw : CanvasOp → Bool
  | .drawImage _ _ _ _ => true
  | .drawImageRect _ _ _ _ _ => true
  | _ => false

def isDrawImageRect : CanvasOp → Bool
  | .drawImageRect _ _ _ _ _ => true
  | _ => false

@[simp] theorem isDraw_save : isDraw CanvasOp.save = false := rfl

@[simp] theorem isDraw_concat (m : M33) : isDraw (CanvasOp.concat m) = false := rfl

@[simp] theorem isDraw_restore : isDraw CanvasOp.restore = false := rfl

@[simp] theorem isDrawImageRect_save : isDrawImageRect CanvasOp.save = false := rfl

@[simp] theorem isDrawImageRect_concat (m : M33) :
    isDrawImageRect (CanvasOp.concat m) = false := rfl

@[simp] theorem isDrawImageRect_restore : isDrawImageRect CanvasOp.restore = false := rfl

@[simp] theorem isDrawImageRect_drawImage (img : ImageRef) (x y : ℚ) (p : SkPaint) :
    isDrawImageRect (CanvasOp.drawImage img x y p) = false := rfl

end CanvasOp

namespace LayerDrawable

/-- The fixed vertical-flip matrix `flipV.setAll(1, 0, 0, 0, -1, 1, 0, 0, 1)`. -/
def flipV : M33 := M33.setAll 1 0 0 0 (-1) 1 0 0 1

/-- The pre-inversion texture matrix: the layer texture transform with
`flipV` pre-concatenated, pre-scaled by `(1/width, 1/height)` and
post-scaled by `(width, height)`. -/
def textureMatrixInv (layer : Layer) : M33 :=
  (((layer.texTransform).preConcat flipV).preScale
      (1 / (layer.width : ℚ)) (1 / (layer.height : ℚ))).postScale
    (layer.width : ℚ) (layer.height : ℚ)

/-- The shared fallback: invert the matrix, and on failure keep the
non-inverted matrix (`if (!m.invert(&out)) out = m;`). -/
def invertOrSelf (m : M33) : M33 := (m.invert).getD m

/-- The forward texture matrix: the inverse of `textureMatrixInv`, or
`textureMatrixInv` itself when inversion fails. -/
def textureMatrix (layer : Layer) : M33 := invertOrSelf (textureMatrixInv layer)

/-- The matrix concatenated onto the canvas: with a destination rectangle
the texture matrix alone (readback), otherwise
`Concat(layerTransform, textureMatrix)`. -/
def finalMatrix (layer : Layer) (dstRect : Option SkRect) : M33 :=
  match dstRect with
  | some _ => textureMatrix layer
  | none => M33.concat layer.transform (textureMatrix layer)

/-- The paint built from the layer: alpha, blend mode, color filter, and
low filter quality exactly when forced filtering is requested. -/
def layerPaint (layer : Layer) : SkPaint :=
  { alpha := layer.alpha
    blendMode := layer.mode
    colorFilter := layer.colorSpaceWithFilter
    filterQuality := if layer.forceFilter then FilterQuality.kLow else FilterQuality.kNone }

/-- The single draw primitive issued: with a destination rectangle, an
image-rectangle draw of the inverse-mapped full image rectangle into the
inverse-mapped caller rectangle with the fast constraint; otherwise the
whole image at the origin. -/
def drawOps (img : ImageRef) (layer : Layer) (dstRect : Option SkRect) : List CanvasOp :=
  match dstRect with
  | some dr =>
    let matrixInv := invertOrSelf (finalMatrix layer dstRect)
    let srcRect := matrixInv.mapRect (SkRect.MakeIWH layer.width layer.height)
    let skiaDestRect := matrixInv.mapRect dr
    [CanvasOp.drawImageRect img srcRect skiaDestRect (layerPaint layer) SrcRectConstraint.kFast]
  | none => [CanvasOp.drawImage img 0 0 (layerPaint layer)]

/-- `LayerDrawable::DrawLayer`: returns the boolean result and the list
of calls issued to the destination canvas.  A null context fails fast;
with no backing image nothing is drawn and the result is false; otherwise
the final matrix is concatenated inside a save/restore pair exactly when
it is not the identity, and one draw primitive is issued. -/
def DrawLayer (context : Option GrContext) (layer : Layer) (dstRect : Option SkRect) :
    Bool × List CanvasOp :=
  if context = none then (false, [])
  else
    match layer.image with
    | none => (false, [])
    | some img =>
      let matrix := finalMatrix layer dstRect
      let nonIdentityMatrix := !matrix.isIdentity
      (true,
        (if nonIdentityMatrix then [CanvasOp.save, CanvasOp.concat matrix] else [])
          ++ drawOps img layer dstRect
          ++ (if nonIdentityMatrix then [CanvasOp.restore] else []))

/-- The updater owning the optional backing layer (`mLayerUpdater`). -/
structure LayerUpdater where
  backingLayer : Option Layer

/-- The canvas handle passed to `onDraw`; `grContext` is what
`canvas->getGrContext()` returns. -/
structure CanvasHandle where
  grContext : Option GrContext

/-- `LayerDrawable::onDraw`: calls `DrawLayer` on the updater's backing
layer when it is non-null, with no destination rectangle (the defaulted
`dstRect` argument), discarding the boolean result. -/
def onDraw (drawable : LayerUpdater) (canvas : CanvasHandle) : List CanvasOp :=
  match drawable.backingLayer with
  | some layer => (DrawLayer canvas.grContext layer none).2
  | none => []

/-- Modelled from the spec: a destination surface stub that records
calls; running `DrawLayer` against it appends the issued calls to the
recorded list and returns the boolean result. -/
def DrawLayerOn (recorded : List CanvasOp) (context : Option GrContext) (layer : Layer)
    (dstRect : Option SkRect) : Bool × List CanvasOp :=
  ((DrawLayer context layer dstRect).1, recorded ++ (DrawLayer context layer dstRect).2)

end LayerDrawable

namespace M33

theorem mulAssoc (x y z : M33) : (x.mul y).mul z = x.mul (y.mul z) := by
  simp only [mul, mk.injEq]
  refine ⟨by ring, by ring, by ring, by ring, by ring, by ring, by ring, by ring, by ring⟩

theorem mul_idM (m : M33) : m.mul idM = m := by
  cases m
  simp only [mul, idM, mk.injEq]
  refine ⟨by ring, by ring, by ring, by ring, by ring, by ring, by ring, by ring, by ring⟩

theorem idM_mul (m : M33) : idM.mul m = m := by
  cases m
  simp only [mul, idM, mk.injEq]
  refine ⟨by ring, by ring, by ring, by ring, by ring, by ring, by ring, by ring, by ring⟩

theorem det_mul (x y : M33) : (x.mul y).det = x.det * y.det := by
  simp only [mul, det]
  ring

theorem invert_of_det_eq_zero (m : M33) (h : m.det = 0) : m.invert = none := by
  simp [invert, h]

theorem mul_invert_self (m mi : M33) (h : m.invert = some mi) : m.mul mi = idM := by
  unfold invert at h
  by_cases hd : m.det = 0
  · simp [hd] at h
  · simp only [hd, if_false, Option.some.injEq] at h
    subst h
    simp only [mul, idM, mk.injEq, det] at hd ⊢
    refine ⟨?_, ?_, ?_, ?_, ?_, ?_, ?_, ?_, ?_⟩ <;> (field_simp; ring)

theorem mul_cancel_of_det_ne_zero (L T : M33) (hdet : T.det ≠ 0) (h : L.mul T = T) :
    L = idM := by
  obtain ⟨Ti, hTi⟩ : ∃ Ti, T.invert = some Ti := by simp [invert, hdet]
  have hTTi : T.mul Ti = idM := mul_invert_self T Ti hTi
  calc L = L.mul idM := (mul_idM L).symm
    _ = L.mul (T.mul Ti) := by rw [hTTi]
    _ = (L.mul T).mul Ti := (mulAssoc L T Ti).symm
    _ = T.mul Ti := by rw [h]
    _ = idM := hTTi

theorem isIdentity_iff (m : M33) : m.isIdentity = true ↔ m = idM := by
  simp [isIdentity]

end M33

namespace LayerDrawable

/-- Concrete layer: 100 by 50, identity placement and texture transforms,
backing image present. -/
def sampleLayer : Layer :=
  { transform := M33.idM, image := some 1, width := 100, height := 50,
    texTransform := M33.idM, alpha := 128, mode := 3,
    colorSpaceWithFilter := some 2, forceFilter := true }

/-- Concrete layer with an all-zero (singular) texture transform and a
non-identity placement transform. -/
def singularLayer : Layer :=
  { transform := M33.scaleM 2 2, image := some 1, width := 1, height := 1,
    texTransform := M33.setAll 0 0 0 0 0 0 0 0 0, alpha := 255, mode := 0,
    colorSpaceWithFilter := none, forceFilter := false }

/-- Concrete layer whose texture transform is `flipV` itself, making the
composed texture matrix the identity. -/
def flipTexLayer : Layer :=
  { transform := M33.idM, image := some 7, width := 1, height := 1,
    texTransform := flipV, alpha := 200, mode := 1,
    colorSpaceWithFilter := none, forceFilter := false }

/-- Concrete layer with an invertible texture matrix and a placement
transform scaling by two. -/
def scaledLayer : Layer :=
  { transform := M33.scaleM 2 2, image := some 4, width := 1, height := 1,
    texTransform := M33.idM, alpha := 9, mode := 2,
    colorSpaceWithFilter := none, forceFilter := false }

/-- The unit square as a destination rectangle. -/
def unitRect : SkRect := ⟨0, 0, 1, 1⟩

/-- C1: for every context, layer and optional destination rectangle,
`DrawLayer` returns true iff the context is non-null and the layer has a
backing image; the result is a function of those two presences alone, so
it does not depend on the draw primitive. -/
theorem drawLayer_result_presence (context : Option GrContext) (layer : Layer)
    (dstRect : Option SkRect) :
    (DrawLayer context layer dstRect).1 = (context.isSome && layer.image.isSome) := by
  unfold DrawLayer
  cases context with
  | none => simp
  | some c => cases h : layer.image <;> simp [h]

/-- C4: when the context is null or the layer has no backing image,
`DrawLayer` returns false and issues no canvas call at all. -/
theorem drawLayer_failure_no_ops (context : Option GrContext) (layer : Layer)
    (dstRect : Option SkRect) (h : context = none ∨ layer.image = none) :
    DrawLayer context layer dstRect = (false, []) := by
  unfold DrawLayer
  rcases h with h | h
  · simp [h]
  · cases context <;> simp [h]

/-- C4 witness: a null context with a fully populated layer, and a valid
context with an image-less layer, both return false with no canvas call. -/
theorem drawLayer_failure_no_ops_witness :
    DrawLayer none sampleLayer (some unitRect) = (false, []) ∧
    DrawLayer (some ()) { sampleLayer with image := none } none = (false, []) :=
  ⟨drawLayer_failure_no_ops none sampleLayer (some unitRect) (Or.inl rfl),
   drawLayer_failure_no_ops (some ()) { sampleLayer with image := none } none (Or.inr rfl)⟩

/-- C9: `DrawLayer` is deterministic and stateless: against a recording
surface, a call appends exactly `(DrawLayer context layer dstRect).2`,
and a second call with identical inputs appends the identical call
sequence and returns the identical boolean. -/
theorem drawLayer_stateless (recorded : List CanvasOp) (context : Option GrContext)
    (layer : Layer) (dstRect : Option SkRect) :
    (DrawLayerOn recorded context layer dstRect).2
        = recorded ++ (DrawLayer context layer dstRect).2
      ∧ (DrawLayerOn (DrawLayerOn recorded context layer dstRect).2 context layer dstRect).2
        = (DrawLayerOn recorded context layer dstRect).2 ++ (DrawLayer context layer dstRect).2
      ∧ (DrawLayerOn (DrawLayerOn recorded context layer dstRect).2 context layer dstRect).1
        = (DrawLayerOn recorded context layer dstRect).1 :=
  ⟨rfl, rfl, rfl⟩

/-- The no-rectangle path never issues an image-rectangle draw. -/
theorem drawLayer_none_no_image_rect (context : Option GrContext) (layer : Layer) :
    ((DrawLayer context layer none).2).countP CanvasOp.isDrawImageRect = 0 := by
  unfold DrawLayer
  cases context with
  | none => simp
  | some c =>
    cases h : layer.image with
    | none => simp [h]
    | some img =>
      simp only [h]
      cases hid : (finalMatrix layer none).isIdentity <;>
        simp [hid, drawOps, List.countP_append, List.countP_cons, CanvasOp.isDrawImageRect,
          List.countP_nil]

/-- C10: `onDraw` invokes `DrawLayer` only when the backing layer is
non-null and always without a destination rectangle, so no
image-rectangle (readback) draw is ever issued through it; with a null
backing layer it performs no canvas operation. -/
theorem onDraw_no_readback (drawable : LayerUpdater) (canvas : CanvasHandle) :
    (drawable.backingLayer = none → onDraw drawable canvas = [])
      ∧ (∀ layer, drawable.backingLayer = some layer →
        onDraw drawable canvas = (DrawLayer canvas.grContext layer none).2)
      ∧ (onDraw drawable canvas).countP CanvasOp.isDrawImageRect = 0 := by
  refine ⟨?_, ?_, ?_⟩
  · intro h
    simp [onDraw, h]
  · intro layer h
    simp [onDraw, h]
  · unfold onDraw
    cases h : drawable.backingLayer with
    | none => simp
    | some layer => exact drawLayer_none_no_image_rect canvas.grContext layer

/-- C10 witness: a null backing layer yields no canvas operation. -/
theorem onDraw_no_readback_witness : onDraw ⟨none⟩ ⟨some ()⟩ = [] :=
  (onDraw_no_readback ⟨none⟩ ⟨some ()⟩).1 rfl

/-- C2: the pre-inversion texture matrix is
`Scale(w, h) * ((texTransform * flipV) * Scale(1/w, 1/h))`; the forward
texture matrix is its inverse whenever that inverse exists (and the
non-inverted matrix otherwise); and the placement transform enters the
final matrix unflipped, on the left of the texture matrix. -/
theorem textureMatrix_construction (layer : Layer) (_himg : layer.image.isSome = true) :
    textureMatrixInv layer
        = M33.mul (M33.scaleM (layer.width : ℚ) (layer.height : ℚ))
            (M33.mul (M33.mul layer.texTransform flipV)
              (M33.scaleM (1 / (layer.width : ℚ)) (1 / (layer.height : ℚ))))
      ∧ (∀ T, (textureMatrixInv layer).invert = some T → textureMatrix layer = T)
      ∧ textureMatrix layer
        = (match (textureMatrixInv layer).invert with
           | some m => m
           | none => textureMatrixInv layer)
      ∧ finalMatrix layer none = M33.mul layer.transform (textureMatrix layer)
      ∧ (∀ dr : SkRect, finalMatrix layer (some dr) = textureMatrix layer) := by
  refine ⟨rfl, ?_, ?_, rfl, fun _ => rfl⟩
  · intro T hT
    simp [textureMatrix, invertOrSelf, hT]
  · cases hT : (textureMatrixInv layer).invert <;> simp [textureMatrix, invertOrSelf, hT]

/-- C2 witness: the construction instantiated at the sample layer. -/
theorem textureMatrix_construction_witness :
    finalMatrix sampleLayer none
      = M33.mul sampleLayer.transform (textureMatrix sampleLayer) :=
  (textureMatrix_construction sampleLayer rfl).2.2.2.1

/-- C3 counterexample: for the layer with an all-zero texture transform,
the readback final matrix equals the no-rectangle final matrix even
though the placement transform is not the identity, refuting the claimed
"differs exactly when non-identity" equivalence. -/
theorem readback_difference_counterexample :
    finalMatrix singularLayer (some unitRect) = finalMatrix singularLayer none
      ∧ singularLayer.transform ≠ M33.idM := by
  constructor
  · norm_num [finalMatrix, textureMatrix, invertOrSelf, textureMatrixInv, M33.invert,
      M33.det, M33.mul, M33.preConcat, M33.preScale, M33.postScale, M33.scaleM,
      M33.concat, M33.setAll, flipV, singularLayer]
  · norm_num [singularLayer, M33.scaleM, M33.idM, M33.mk.injEq]

/-- C3 (amended): with a destination rectangle the final matrix is the
texture matrix alone (placement excluded); without one it is the
placement transform concatenated before the texture matrix; and provided
the texture matrix is invertible, the two final matrices differ exactly
when the placement transform is non-identity. -/
theorem readback_final_matrix (layer : Layer) (dr : SkRect)
    (_himg : layer.image.isSome = true) :
    finalMatrix layer (some dr) = textureMatrix layer
      ∧ finalMatrix layer none = M33.mul layer.transform (textureMatrix layer)
      ∧ ((textureMatrix layer).det ≠ 0 →
        (finalMatrix layer (some dr) ≠ finalMatrix layer none
          ↔ layer.transform ≠ M33.idM)) := by
  refine ⟨rfl, rfl, ?_⟩
  intro hdet
  have key : finalMatrix layer (some dr) = finalMatrix layer none
      ↔ layer.transform = M33.idM := by
    constructor
    · intro heq
      exact M33.mul_cancel_of_det_ne_zero layer.transform (textureMatrix layer) hdet heq.symm
    · intro hid
      show textureMatrix layer = M33.concat layer.transform (textureMatrix layer)
      rw [hid]
      exact (M33.idM_mul (textureMatrix layer)).symm
  exact not_congr key

/-- C3 amended witness: for the scaled layer the texture matrix is
invertible, so the readback final matrix differs from the no-rectangle
one exactly when its placement transform is non-identity. -/
theorem readback_final_matrix_witness :
    finalMatrix scaledLayer (some unitRect) ≠ finalMatrix scaledLayer none
      ↔ scaledLayer.transform ≠ M33.idM :=
  (readback_final_matrix scaledLayer unitRect rfl).2.2
    (by norm_num [textureMatrix, invertOrSelf, textureMatrixInv, M33.invert, M33.det,
      M33.mul, M33.preConcat, M33.preScale, M33.postScale, M33.scaleM, M33.setAll,
      M33.idM, flipV, scaledLayer])

/-- Each branch issues exactly one draw primitive. -/
theorem drawOps_singleton (img : ImageRef) (layer : Layer) (dstRect : Option SkRect) :
    ∃ d, CanvasOp.isDraw d = true ∧ drawOps img layer dstRect = [d] := by
  cases dstRect with
  | none => exact ⟨CanvasOp.drawImage img 0 0 (layerPaint layer), rfl, rfl⟩
  | some dr =>
    exact ⟨CanvasOp.drawImageRect img
      ((invertOrSelf (finalMatrix layer (some dr))).mapRect
        (SkRect.MakeIWH layer.width layer.height))
      ((invertOrSelf (finalMatrix layer (some dr))).mapRect dr)
      (layerPaint layer) SrcRectConstraint.kFast, rfl, rfl⟩

/-- C5: with a valid context and a backing image, an identity final
matrix yields the single draw call with no save, concat or restore, and
a non-identity final matrix yields exactly save, concat, draw, restore
in that order, so every save is matched by exactly one restore. -/
theorem save_restore_discipline (context : Option GrContext) (layer : Layer)
    (dstRect : Option SkRect) (img : ImageRef)
    (hc : context.isSome = true) (hi : layer.image = some img) :
    ∃ d, CanvasOp.isDraw d = true
      ∧ ((finalMatrix layer dstRect).isIdentity = true →
        (DrawLayer context layer dstRect).2 = [d])
      ∧ ((finalMatrix layer dstRect).isIdentity = false →
        (DrawLayer context layer dstRect).2
          = [CanvasOp.save, CanvasOp.concat (finalMatrix layer dstRect), d,
              CanvasOp.restore]) := by
  obtain ⟨d, hd, hds⟩ := drawOps_singleton img layer dstRect
  cases context with
  | none => simp at hc
  | some c =>
    refine ⟨d, hd, ?_, ?_⟩
    · intro hid
      simp [DrawLayer, hi, hid, hds]
    · intro hid
      simp [DrawLayer, hi, hid, hds]

/-- C5 witness: the layer whose texture transform is `flipV` composes to
the identity final matrix, instantiating the discipline statement. -/
theorem save_restore_discipline_witness :
    ∃ d, CanvasOp.isDraw d = true
      ∧ ((finalMatrix flipTexLayer none).isIdentity = true →
        (DrawLayer (some ()) flipTexLayer none).2 = [d])
      ∧ ((finalMatrix flipTexLayer none).isIdentity = false →
        (DrawLayer (some ()) flipTexLayer none).2
          = [CanvasOp.save, CanvasOp.concat (finalMatrix flipTexLayer none), d,
              CanvasOp.restore]) :=
  save_restore_discipline (some ()) flipTexLayer none 7 rfl rfl

/-- C6: a singular pre-inversion texture matrix never aborts the draw:
the result stays true, exactly one draw primitive is still issued, the
texture-matrix site keeps the non-inverted matrix, the final matrix is
singular as well, and the destination-rectangle mapping site also keeps
the non-inverted matrix. -/
theorem degenerate_matrix_graceful (context : Option GrContext) (layer : Layer)
    (dstRect : Option SkRect) (img : ImageRef)
    (hc : context.isSome = true) (hi : layer.image = some img)
    (hdet : (textureMatrixInv layer).det = 0) :
    (DrawLayer context layer dstRect).1 = true
      ∧ ((DrawLayer context layer dstRect).2).countP CanvasOp.isDraw = 1
      ∧ textureMatrix layer = textureMatrixInv layer
      ∧ (finalMatrix layer dstRect).det = 0
      ∧ invertOrSelf (finalMatrix layer dstRect) = finalMatrix layer dstRect := by
  have hT : textureMatrix layer = textureMatrixInv layer := by
    simp [textureMatrix, invertOrSelf, M33.invert_of_det_eq_zero _ hdet]
  have hfd : (finalMatrix layer dstRect).det = 0 := by
    cases dstRect with
    | some dr =>
      show (textureMatrix layer).det = 0
      rw [hT]
      exact hdet
    | none =>
      show (M33.concat layer.transform (textureMatrix layer)).det = 0
      rw [M33.concat, M33.det_mul, hT, hdet, mul_zero]
  cases context with
  | none => simp at hc
  | some c =>
    obtain ⟨d, hd, hds⟩ := drawOps_singleton img layer dstRect
    refine ⟨?_, ?_, hT, hfd, ?_⟩
    · simp [DrawLayer, hi]
    · cases hid : (finalMatrix layer dstRect).isIdentity <;>
        simp [DrawLayer, hi, hid, hds, List.countP_append, List.countP_cons, hd]
    · simp [invertOrSelf, M33.invert_of_det_eq_zero _ hfd]

/-- C6 witness: the singular layer drawn with a valid context and no
destination rectangle. -/
theorem degenerate_matrix_graceful_witness :
    (DrawLayer (some ()) singularLayer none).1 = true
      ∧ ((DrawLayer (some ()) singularLayer none).2).countP CanvasOp.isDraw = 1
      ∧ textureMatrix singularLayer = textureMatrixInv singularLayer
      ∧ (finalMatrix singularLayer none).det = 0
      ∧ invertOrSelf (finalMatrix singularLayer none) = finalMatrix singularLayer none :=
  degenerate_matrix_graceful (some ()) singularLayer none 1 rfl rfl
    (by norm_num [textureMatrixInv, M33.det, M33.mul, M33.preConcat, M33.preScale,
      M33.postScale, M33.scaleM, M33.setAll, flipV, singularLayer])

/-- C7: the paint carries the layer's opacity, blend mode and composed
color filter, with low filter quality exactly when forced filtering is
set; with a destination rectangle the issued draw is the image-rectangle
draw of the inverse-mapped full image rectangle into the inverse-mapped
caller rectangle under the fast constraint, and without one it is the
whole image at the origin. -/
theorem paint_descriptor (context : Option GrContext) (layer : Layer) (img : ImageRef)
    (dr : SkRect) (hc : context.isSome = true) (hi : layer.image = some img) :
    (layerPaint layer).alpha = layer.alpha
      ∧ (layerPaint layer).blendMode = layer.mode
      ∧ (layerPaint layer).colorFilter = layer.colorSpaceWithFilter
      ∧ ((layerPaint layer).filterQuality = FilterQuality.kLow ↔ layer.forceFilter = true)
      ∧ CanvasOp.drawImageRect img
          ((invertOrSelf (finalMatrix layer (some dr))).mapRect
            (SkRect.MakeIWH layer.width layer.height))
          ((invertOrSelf (finalMatrix layer (some dr))).mapRect dr)
          (layerPaint layer) SrcRectConstraint.kFast
        ∈ (DrawLayer context layer (some dr)).2
      ∧ CanvasOp.drawImage img 0 0 (layerPaint layer) ∈ (DrawLayer context layer none).2 := by
  cases context with
  | none => simp at hc
  | some c =>
    refine ⟨rfl, rfl, rfl, ?_, ?_, ?_⟩
    · cases hf : layer.forceFilter <;> simp [layerPaint, hf]
    · cases hid : (finalMatrix layer (some dr)).isIdentity <;>
        simp [DrawLayer, hi, hid, drawOps, List.mem_append, List.mem_cons]
    · cases hid : (finalMatrix layer none).isIdentity <;>
        simp [DrawLayer, hi, hid, drawOps, List.mem_append, List.mem_cons]

/-- C7 witness: the paint and draw shapes instantiated at the sample
layer with the unit destination rectangle. -/
theorem paint_descriptor_witness :
    (layerPaint sampleLayer).alpha = sampleLayer.alpha
      ∧ (layerPaint sampleLayer).blendMode = sampleLayer.mode
      ∧ (layerPaint sampleLayer).colorFilter = sampleLayer.colorSpaceWithFilter
      ∧ ((layerPaint sampleLayer).filterQuality = FilterQuality.kLow
        ↔ sampleLayer.forceFilter = true)
      ∧ CanvasOp.drawImageRect 1
          ((invertOrSelf (finalMatrix sampleLayer (some unitRect))).mapRect
            (SkRect.MakeIWH sampleLayer.width sampleLayer.height))
          ((invertOrSelf (finalMatrix sampleLayer (some unitRect))).mapRect unitRect)
          (layerPaint sampleLayer) SrcRectConstraint.kFast
        ∈ (DrawLayer (some ()) sampleLayer (some unitRect)).2
      ∧ CanvasOp.drawImage 1 0 0 (layerPaint sampleLayer)
        ∈ (DrawLayer (some ()) sampleLayer none).2 :=
  paint_descriptor (some ()) sampleLayer 1 unitRect rfl rfl

/-- C8: for the 100 by 50 layer with identity placement and texture
transforms, the pre-inversion texture matrix is the vertical flip about
y = 25, that matrix is its own inverse, so the forward texture matrix is
the same flip, it is not the identity, and it maps the point (0, 0) to
(0, 50). -/
theorem flip_roundtrip :
    textureMatrixInv sampleLayer = M33.setAll 1 0 0 0 (-1) 50 0 0 1
      ∧ (textureMatrixInv sampleLayer).invert = some (M33.setAll 1 0 0 0 (-1) 50 0 0 1)
      ∧ textureMatrix sampleLayer = M33.setAll 1 0 0 0 (-1) 50 0 0 1
      ∧ textureMatrix sampleLayer ≠ M33.idM
      ∧ (textureMatrix sampleLayer).mapPoint (0, 0) = (0, 50) := by
  have h1 : textureMatrixInv sampleLayer = M33.setAll 1 0 0 0 (-1) 50 0 0 1 := by
    norm_num [textureMatrixInv, M33.mul, M33.preConcat, M33.preScale, M33.postScale,
      M33.scaleM, M33.setAll, M33.idM, flipV, sampleLayer]
  have h2 : (M33.setAll 1 0 0 0 (-1) 50 0 0 1).invert
      = some (M33.setAll 1 0 0 0 (-1) 50 0 0 1) := by
    norm_num [M33.invert, M33.det, M33.setAll]
  have h3 : textureMatrix sampleLayer = M33.setAll 1 0 0 0 (-1) 50 0 0 1 := by
    rw [textureMatrix, invertOrSelf, h1, h2]
    rfl
  refine ⟨h1, h1 ▸ h2, h3, ?_, ?_⟩
  · rw [h3]
    norm_num [M33.setAll, M33.idM, M33.mk.injEq]
  · rw [h3]
    norm_num [M33.mapPoint, M33.setAll]

end LayerDrawable
